import Mathlib

/-!
Shallow embedding of `src/dev.c` (libfido2 device/session layer) and proofs
about the claims concerning it.

Modelling conventions:
* C machine integers are `Nat` (with explicit `% 2 ^ 64` where `size_t`
  arithmetic can wrap); `int` return values that can be negative are `Int`.
* Nullable pointers are `Option`.
* Calls into the outside world (`obtain_nonce`, `io.open`, the HID
  writes/reads underlying `fido_tx` / `fido_rx`) are passed in as explicit
  oracle parameters describing the outcome of the external call; the control
  flow around those outcomes is translated from the source.
* `fido_tx` / `fido_rx` live in `src/io.c`, which is not part of the given
  sources; where their behaviour matters it is modelled from the spec and
  annotated as such.
-/

set_option linter.unusedVariables false

/-- Error codes of fido/err.h (the header is not among the sources; only the
identity of each code matters to the claims, so they are an inductive). -/
inductive fido_err where
  | FIDO_OK
  | FIDO_ERR_TX
  | FIDO_ERR_RX
  | FIDO_ERR_INVALID_ARGUMENT
  | FIDO_ERR_INTERNAL
  | FIDO_ERR_OTHER (code : Nat)
deriving DecidableEq, Repr

open fido_err

/-- CTAPHID INIT frame marker: the command byte of an initialisation frame has
bit 7 set (spec 4.B). -/
def CTAP_FRAME_INIT : Nat := 0x80

/-- CTAPHID INIT command (spec 4.B: INIT is 0x06). -/
def CTAP_CMD_INIT : Nat := 0x06

/-- CTAPHID CANCEL command (spec 4.B: CANCEL is 0x11). -/
def CTAP_CMD_CANCEL : Nat := 0x11

/-- The CTAPHID broadcast channel (spec 3: broadcast channel 0xFFFFFFFF). -/
def CTAP_CID_BROADCAST : Nat := 0xFFFFFFFF

/-- The CBOR capability bit of the INIT reply flag byte. Modelled from the
spec: scenario 1 of spec 8 has flags 0x05 = wink|cbor with wink = 0x01, so
the CBOR capability is bit 2 (0x04), as in the CTAPHID standard. -/
def FIDO_CAP_CBOR : Nat := 0x04

/-- 2 ^ 64: modulus of C `size_t` arithmetic in `fido_dev_info_manifest`. -/
def SIZE_T_MOD : Nat := 18446744073709551616

/-- The C expression `ilen - *olen` on `size_t` operands: wrap-around
subtraction modulo 2 ^ 64 (for `b ≤ a < 2 ^ 64` it is ordinary subtraction). -/
def sub_size (a b : Nat) : Nat := (SIZE_T_MOD + a - b % SIZE_T_MOD) % SIZE_T_MOD

/-- The attribute structure filled by the INIT handshake reply
(`dev->attr`): 8-byte nonce, 4-byte channel id, five single bytes
(protocol, major, minor, build, flags). All fields are kept as `Nat`. -/
structure fido_ctap_info where
  nonce : Nat
  cid : Nat
  protocol : Nat
  major : Nat
  minor : Nat
  build : Nat
  flags : Nat
deriving DecidableEq, Repr

/-- `sizeof(dev->attr)`: 8 + 4 + 5 bytes (the packed INIT reply payload). -/
def CTAP_INIT_REPLY_SIZE : Nat := 17

/-- The I/O vtable `fido_dev_io_t`: four possibly-NULL function pointers.
The pointees are abstract values of a type `F` (their run-time behaviour is
supplied separately, as oracle outcomes); `none` is a NULL pointer. -/
structure fido_dev_io_t (F : Type) where
  open_fn : Option F
  close_fn : Option F
  read_fn : Option F
  write_fn : Option F
deriving DecidableEq

/-- The slice of `fido_dev_info_t` that `dev.c` touches: the device path and
the embedded I/O vtable. -/
structure fido_dev_info_t (F : Type) where
  path : Option String
  io : fido_dev_io_t F
deriving DecidableEq

/-- The slice of the device session `fido_dev_t` that `dev.c` touches: the
opened I/O handle (abstract type `H`, `none` when closed), the channel id,
the nonce sent on INIT, the INIT reply attributes, and the owned dev_info. -/
structure fido_dev_t (H F : Type) where
  io_handle : Option H
  cid : Nat
  nonce : Nat
  attr : fido_ctap_info
  dev_info : fido_dev_info_t F
deriving DecidableEq

/-- One CTAPHID frame as it leaves the transport: channel id, command byte
and payload bytes. -/
structure ctap_frame where
  cid : Nat
  cmd : Nat
  payload : List Nat
deriving DecidableEq, Repr

/-- The little-endian bytes of a 64-bit value (the nonce payload of INIT). -/
def u64_le_bytes (n : Nat) : List Nat :=
  (List.range 8).map (fun i => n >>> (8 * i) &&& 255)

/-- Modelled from the spec: `fido_tx` (defined in `src/io.c`, which is not
among the sources) fragments a payload into HID frames on the device channel
`dev->cid`; every payload used in `dev.c` fits a single INIT frame, so one
frame is produced. It fails exactly when the underlying `io.write` fails;
`writeOk` is the outcome of that external write. The result is the success
flag paired with the frames handed to the write function. -/
def fido_tx {H F : Type} (dev : fido_dev_t H F) (cmd : Nat) (payload : List Nat)
    (writeOk : Bool) : Bool × List ctap_frame :=
  (writeOk, [⟨dev.cid, cmd, payload⟩])

/-- `fido_dev_open_tx` from the source. Oracle parameters: `nonce_res` is the
outcome of `obtain_nonce` (`none` on failure), `open_res` the handle returned
by `dev->dev_info->io.open(path)` (`none` for NULL), `writeOk` the outcome of
the write underlying `fido_tx`. -/
def fido_dev_open_tx {H F : Type} (dev : fido_dev_t H F) (path : Option String)
    (nonce_res : Option Nat) (open_res : Option H) (writeOk : Bool) :
    fido_err × fido_dev_t H F :=
  if dev.io_handle.isSome then
    (FIDO_ERR_INVALID_ARGUMENT, dev)
  else if dev.dev_info.io.open_fn.isNone || dev.dev_info.io.close_fn.isNone then
    (FIDO_ERR_INVALID_ARGUMENT, dev)
  else
    match nonce_res with
    | none => (FIDO_ERR_INTERNAL, dev)
    | some nonce =>
      let dev1 := { dev with nonce := nonce }
      match open_res with
      | none => (FIDO_ERR_INTERNAL, { dev1 with io_handle := none })
      | some h =>
        let dev2 := { dev1 with io_handle := some h }
        if (fido_tx dev2 (CTAP_FRAME_INIT ||| CTAP_CMD_INIT)
              (u64_le_bytes dev2.nonce) writeOk).1 then
          (FIDO_OK, dev2)
        else
          (FIDO_ERR_TX, { dev2 with io_handle := none })

/-- `fido_dev_open_rx` from the source, for a non-FIDO_FUZZ build (the
FIDO_FUZZ branch overwriting `dev->attr.nonce` with `dev->nonce` is absent).
Oracle parameters: `rx_n` is the byte count returned by `fido_rx` (negative on
read failure) and `rx_attr` the attribute bytes it stored into `dev->attr`.
On failure the handle is closed (`io.close`) and set to NULL. -/
def fido_dev_open_rx {H F : Type} (dev : fido_dev_t H F) (rx_n : Int)
    (rx_attr : fido_ctap_info) : fido_err × fido_dev_t H F :=
  let dev1 := { dev with attr := rx_attr }
  if rx_n < 0 then
    (FIDO_ERR_RX, { dev1 with io_handle := none })
  else if rx_n ≠ (CTAP_INIT_REPLY_SIZE : Int) ∨ rx_attr.nonce ≠ dev1.nonce then
    (FIDO_ERR_RX, { dev1 with io_handle := none })
  else
    (FIDO_OK, { dev1 with cid := rx_attr.cid })

/-- `fido_dev_open_wait` from the source: INIT tx then rx (the `ms` timeout
is absorbed into the rx oracle). -/
def fido_dev_open_wait {H F : Type} (dev : fido_dev_t H F) (path : Option String)
    (nonce_res : Option Nat) (open_res : Option H) (writeOk : Bool)
    (rx_n : Int) (rx_attr : fido_ctap_info) : fido_err × fido_dev_t H F :=
  let p := fido_dev_open_tx dev path nonce_res open_res writeOk
  if p.1 = FIDO_OK then fido_dev_open_rx p.2 rx_n rx_attr else p

/-- `fido_dev_open_wait_with_info` from the source: as `fido_dev_open_wait`
but with the path taken from `dev->dev_info->path`. -/
def fido_dev_open_wait_with_info {H F : Type} (dev : fido_dev_t H F)
    (nonce_res : Option Nat) (open_res : Option H) (writeOk : Bool)
    (rx_n : Int) (rx_attr : fido_ctap_info) : fido_err × fido_dev_t H F :=
  let p := fido_dev_open_tx dev dev.dev_info.path nonce_res open_res writeOk
  if p.1 = FIDO_OK then fido_dev_open_rx p.2 rx_n rx_attr else p

/-- `fido_dev_open` from the source (`ms = -1` absorbed into the oracle). -/
def fido_dev_open {H F : Type} (dev : fido_dev_t H F) (path : Option String)
    (nonce_res : Option Nat) (open_res : Option H) (writeOk : Bool)
    (rx_n : Int) (rx_attr : fido_ctap_info) : fido_err × fido_dev_t H F :=
  fido_dev_open_wait dev path nonce_res open_res writeOk rx_n rx_attr

/-- `fido_dev_open_with_info` from the source. -/
def fido_dev_open_with_info {H F : Type} (dev : fido_dev_t H F)
    (nonce_res : Option Nat) (open_res : Option H) (writeOk : Bool)
    (rx_n : Int) (rx_attr : fido_ctap_info) : fido_err × fido_dev_t H F :=
  fido_dev_open_wait_with_info dev nonce_res open_res writeOk rx_n rx_attr

/-- `fido_dev_close` from the source: rejected when no handle is open or the
close pointer is NULL, otherwise the handle is closed and set to NULL. -/
def fido_dev_close {H F : Type} (dev : fido_dev_t H F) :
    fido_err × fido_dev_t H F :=
  if dev.io_handle.isNone || dev.dev_info.io.close_fn.isNone then
    (FIDO_ERR_INVALID_ARGUMENT, dev)
  else
    (FIDO_OK, { dev with io_handle := none })

/-- `fido_dev_cancel` from the source: a single `fido_tx` of CANCEL with an
empty payload on the current channel; no reply is read (the definition
consumes no read oracle). Returns the error and the frames handed to the
write function. -/
def fido_dev_cancel {H F : Type} (dev : fido_dev_t H F) (writeOk : Bool) :
    fido_err × List ctap_frame :=
  let t := fido_tx dev (CTAP_FRAME_INIT ||| CTAP_CMD_CANCEL) [] writeOk
  if t.1 = false then (FIDO_ERR_TX, t.2) else (FIDO_OK, t.2)

/-- `fido_dev_set_io_functions` from the source. -/
def fido_dev_set_io_functions {H F : Type} (dev : fido_dev_t H F)
    (io_arg : Option (fido_dev_io_t F)) : fido_err × fido_dev_t H F :=
  if dev.io_handle.isSome then
    (FIDO_ERR_INVALID_ARGUMENT, dev)
  else
    match io_arg with
    | none => (FIDO_ERR_INVALID_ARGUMENT, dev)
    | some io' =>
      if io'.open_fn.isNone || io'.close_fn.isNone ||
          io'.read_fn.isNone || io'.write_fn.isNone then
        (FIDO_ERR_INVALID_ARGUMENT, dev)
      else
        (FIDO_OK, { dev with dev_info := { dev.dev_info with io := io' } })

/-- `fido_dev_new` from the source: calloc zeroes the session (handle NULL,
nonce 0, attributes 0), the channel id is set to the broadcast channel and
the vtable to the four (non-NULL) HID functions, given here as the abstract
values `hidOpen` .. `hidWrite`. `devAllocOk` / `infoAllocOk` are the outcomes
of `calloc` and `fido_dev_info_new`; NULL is returned if either fails. -/
def fido_dev_new {H F : Type} (devAllocOk infoAllocOk : Bool)
    (hidOpen hidClose hidRead hidWrite : F) : Option (fido_dev_t H F) :=
  if devAllocOk = false then none
  else if infoAllocOk = false then none
  else some
    { io_handle := none
      cid := CTAP_CID_BROADCAST
      nonce := 0
      attr := { nonce := 0, cid := 0, protocol := 0, major := 0, minor := 0,
                build := 0, flags := 0 }
      dev_info := { path := none
                    io := { open_fn := some hidOpen, close_fn := some hidClose,
                            read_fn := some hidRead, write_fn := some hidWrite } } }

/-- `fido_dev_is_fido2` from the source: the CBOR capability bit of the flag
byte, converted to bool by C truthiness (non-zero). -/
def fido_dev_is_fido2 {H F : Type} (dev : fido_dev_t H F) : Bool :=
  dev.attr.flags &&& FIDO_CAP_CBOR != 0

/-- `fido_dev_force_u2f` from the source: `dev->attr.flags &= ~FIDO_CAP_CBOR`
on the uint8_t flag byte (the complement truncated to 8 bits is 255 ^^^ 4). -/
def fido_dev_force_u2f {H F : Type} (dev : fido_dev_t H F) : fido_dev_t H F :=
  { dev with attr :=
      { dev.attr with flags := dev.attr.flags &&& (255 ^^^ FIDO_CAP_CBOR) } }

/-- `fido_dev_force_fido2` from the source: `dev->attr.flags |= FIDO_CAP_CBOR`. -/
def fido_dev_force_fido2 {H F : Type} (dev : fido_dev_t H F) : fido_dev_t H F :=
  { dev with attr :=
      { dev.attr with flags := dev.attr.flags ||| FIDO_CAP_CBOR } }

/-- `fido_dev_flags` from the source. -/
def fido_dev_flags {H F : Type} (dev : fido_dev_t H F) : Nat :=
  dev.attr.flags

/-- A manifest provider `dev_manifest_func_t`: given the remaining capacity
(`ilen - *olen`), it fills at most that many device-info slots and returns a
status together with the count it stored into `*olen`. -/
def dev_manifest_func_t : Type := Nat → fido_err × Nat

/-- `fido_dev_register_manifest_func` from the source: a new node is
prepended to the global list `manifest_funcs` (`n->next = manifest_funcs;
manifest_funcs = n`); on calloc failure the list is unchanged and
FIDO_ERR_INTERNAL is returned. The registry is passed explicitly. -/
def fido_dev_register_manifest_func (allocOk : Bool) (func : dev_manifest_func_t)
    (regs : List dev_manifest_func_t) : fido_err × List dev_manifest_func_t :=
  if allocOk = false then (FIDO_ERR_INTERNAL, regs)
  else (FIDO_OK, func :: regs)

/-- The loop of `fido_dev_info_manifest`, walking the registry from its head
with the running `*olen`. Returns the status, the final `*olen`, and the list
of providers that were invoked, in invocation order. `size_t` arithmetic
(`ilen - *olen`, `*olen += curr_olen`) is taken modulo 2 ^ 64. -/
def fido_dev_info_manifest_go (ilen : Nat) :
    List dev_manifest_func_t → Nat → fido_err × Nat × List dev_manifest_func_t
  | [], olen => (FIDO_OK, olen, [])
  | f :: rest, olen =>
    if (f (sub_size ilen olen)).1 = FIDO_OK then
      let olen' := (olen + (f (sub_size ilen olen)).2) % SIZE_T_MOD
      if olen' = ilen then (FIDO_OK, olen', [f])
      else
        let q := fido_dev_info_manifest_go ilen rest olen'
        (q.1, q.2.1, f :: q.2.2)
    else ((f (sub_size ilen olen)).1, olen, [f])

/-- `fido_dev_info_manifest` from the source: run the registry with
`*olen = 0`. -/
def fido_dev_info_manifest (regs : List dev_manifest_func_t) (ilen : Nat) :
    fido_err × Nat × List dev_manifest_func_t :=
  fido_dev_info_manifest_go ilen regs 0

/-- The registry effect of `fido_init` from the source (the LINUX branch
without USE_HIDAPI; the other platform branches are identical up to the name
of the provider): the platform manifest provider is registered. The
debug-logging side effect is not part of the registry state. -/
def fido_init (platform_func : dev_manifest_func_t) (allocOk : Bool)
    (regs : List dev_manifest_func_t) : List dev_manifest_func_t :=
  (fido_dev_register_manifest_func allocOk platform_func regs).2

/-- `fido_exit` from the source: every node of `manifest_funcs` is freed and
the head is set to NULL, so the registry is empty afterwards. -/
def fido_exit (regs : List dev_manifest_func_t) : List dev_manifest_func_t :=
  []

/-- A provider is well behaved when, on success, the count it reports is at
most the capacity it was given. -/
def WellBehaved (f : dev_manifest_func_t) : Prop :=
  ∀ cap, (f cap).1 = FIDO_OK → (f cap).2 ≤ cap

/-- The `*olen` value accumulated by a run of the manifest loop over a list
of providers that all succeed, starting from `olen`; `none` when the run
breaks early because `*olen` reached `ilen`. -/
def ok_run (ilen : Nat) : List dev_manifest_func_t → Nat → Option Nat
  | [], olen => some olen
  | f :: rest, olen =>
    let olen' := (olen + (f (sub_size ilen olen)).2) % SIZE_T_MOD
    if olen' = ilen then none else ok_run ilen rest olen'

/-- Registering a sequence of providers in order, each registration
succeeding, starting from the empty registry. -/
def register_sequence (fs : List dev_manifest_func_t) :
    List dev_manifest_func_t :=
  fs.foldl (fun regs f => (fido_dev_register_manifest_func true f regs).2) []

/-- A provider that reports one filled slot when it has capacity. -/
def wit_small : dev_manifest_func_t := fun cap => (FIDO_OK, min 1 cap)

/-- A provider that fills the whole remaining capacity. -/
def wit_fill : dev_manifest_func_t := fun cap => (FIDO_OK, cap)

/-- A provider that always fails with FIDO_ERR_INTERNAL. -/
def wit_err : dev_manifest_func_t := fun _ => (FIDO_ERR_INTERNAL, 0)

/-- A provider that always succeeds reporting zero entries. -/
def cex_f1 : dev_manifest_func_t := fun _ => (FIDO_OK, 0)

/-- A provider that always succeeds reporting one entry. -/
def cex_f2 : dev_manifest_func_t := fun _ => (FIDO_OK, 1)

/-- A concrete closed session over `H = Nat`, `F = Nat`. -/
def wit_dev : fido_dev_t Nat Nat :=
  { io_handle := none
    cid := CTAP_CID_BROADCAST
    nonce := 0
    attr := { nonce := 0, cid := 0, protocol := 0, major := 0, minor := 0,
              build := 0, flags := 0 }
    dev_info := { path := none
                  io := { open_fn := some 0, close_fn := some 1,
                          read_fn := some 2, write_fn := some 3 } } }

/-- `wit_dev` with an open handle. -/
def wit_dev_open : fido_dev_t Nat Nat :=
  { wit_dev with io_handle := some 9 }

/-- A concrete replacement vtable. -/
def wit_io2 : fido_dev_io_t Nat :=
  { open_fn := some 4, close_fn := some 5, read_fn := some 6, write_fn := some 7 }

/-- C5: a second `open` on a session that is already open (I/O handle
non-null) fails with FIDO_ERR_INVALID_ARGUMENT and leaves the session — its
handle, channel id and attributes — exactly as before the call, whatever the
outcomes of the external calls would have been. -/
theorem open_on_open_session_rejected {H F : Type} (dev : fido_dev_t H F)
    (h : H) (path : Option String) (nonce_res : Option Nat) (open_res : Option H)
    (writeOk : Bool) (rx_n : Int) (rx_attr : fido_ctap_info)
    (hopen : dev.io_handle = some h) :
    fido_dev_open dev path nonce_res open_res writeOk rx_n rx_attr =
      (FIDO_ERR_INVALID_ARGUMENT, dev) := by
  simp [fido_dev_open, fido_dev_open_wait, fido_dev_open_tx, hopen]

/-- C5 witness. -/
theorem open_on_open_session_rejected_witness :
    fido_dev_open wit_dev_open none none none false 0
        { nonce := 0, cid := 0, protocol := 0, major := 0, minor := 0,
          build := 0, flags := 0 } =
      (FIDO_ERR_INVALID_ARGUMENT, wit_dev_open) :=
  open_on_open_session_rejected wit_dev_open 9 none none none false 0
    { nonce := 0, cid := 0, protocol := 0, major := 0, minor := 0,
      build := 0, flags := 0 } rfl

/-- C8: `fido_dev_close` on a session with an open handle (and the close
function every API-constructed session has) releases the handle — the I/O
handle is null afterwards — and returns FIDO_OK; on a session with no open
handle it fails with FIDO_ERR_INVALID_ARGUMENT and changes nothing. -/
theorem close_spec {H F : Type} (dev : fido_dev_t H F) :
    (∀ h : H, dev.io_handle = some h → dev.dev_info.io.close_fn.isSome = true →
      fido_dev_close dev = (FIDO_OK, { dev with io_handle := none })) ∧
    (dev.io_handle = none →
      fido_dev_close dev = (FIDO_ERR_INVALID_ARGUMENT, dev)) := by
  constructor
  · intro h hh hc
    obtain ⟨c, hcc⟩ := Option.isSome_iff_exists.mp hc
    simp [fido_dev_close, hh, hcc]
  · intro hh
    simp [fido_dev_close, hh]

/-- C8 witness. -/
theorem close_spec_witness :
    fido_dev_close wit_dev_open = (FIDO_OK, { wit_dev_open with io_handle := none }) ∧
    fido_dev_close wit_dev = (FIDO_ERR_INVALID_ARGUMENT, wit_dev) :=
  ⟨(close_spec wit_dev_open).1 9 rfl rfl, (close_spec wit_dev).2 rfl⟩

/-- C7: `fido_dev_set_io_functions` on a session with an open handle is
rejected with FIDO_ERR_INVALID_ARGUMENT, the session (hence the vtable)
unchanged; with no open handle and all four supplied functions non-null it
succeeds and replaces the vtable. -/
theorem set_io_functions_spec {H F : Type} (dev : fido_dev_t H F)
    (io_arg : Option (fido_dev_io_t F)) :
    (dev.io_handle.isSome = true →
      fido_dev_set_io_functions dev io_arg = (FIDO_ERR_INVALID_ARGUMENT, dev)) ∧
    (∀ io', dev.io_handle = none → io_arg = some io' →
      io'.open_fn.isSome = true → io'.close_fn.isSome = true →
      io'.read_fn.isSome = true → io'.write_fn.isSome = true →
      fido_dev_set_io_functions dev io_arg =
        (FIDO_OK, { dev with dev_info := { dev.dev_info with io := io' } })) := by
  constructor
  · intro hh
    simp [fido_dev_set_io_functions, hh]
  · intro io' hh hio ho hc hr hw
    obtain ⟨o, hoo⟩ := Option.isSome_iff_exists.mp ho
    obtain ⟨c, hcc⟩ := Option.isSome_iff_exists.mp hc
    obtain ⟨r, hrr⟩ := Option.isSome_iff_exists.mp hr
    obtain ⟨w, hww⟩ := Option.isSome_iff_exists.mp hw
    simp [fido_dev_set_io_functions, hh, hio, hoo, hcc, hrr, hww]

/-- C7 witness. -/
theorem set_io_functions_spec_witness :
    fido_dev_set_io_functions wit_dev_open (some wit_io2) =
      (FIDO_ERR_INVALID_ARGUMENT, wit_dev_open) ∧
    fido_dev_set_io_functions wit_dev (some wit_io2) =
      (FIDO_OK, { wit_dev with dev_info := { wit_dev.dev_info with io := wit_io2 } }) :=
  ⟨(set_io_functions_spec wit_dev_open (some wit_io2)).1 rfl,
   (set_io_functions_spec wit_dev (some wit_io2)).2 wit_io2 rfl rfl rfl rfl rfl rfl⟩

/-- C6: `fido_dev_cancel` hands the transport a single CANCEL frame on the
session's current channel id and returns FIDO_OK without reading any reply
(the definition consumes no read outcome); it returns FIDO_ERR_TX exactly
when the frame write fails; and a fresh session from `fido_dev_new` has its
channel id initialised to the broadcast channel, so cancel on it sends the
frame on the broadcast channel 0xFFFFFFFF. The framing of `fido_tx`
(src/io.c, absent from the sources) is modelled from the spec. -/
theorem cancel_spec {H F : Type} (dev : fido_dev_t H F) (writeOk : Bool)
    (hidOpen hidClose hidRead hidWrite : F) (d0 : fido_dev_t H F)
    (hnew : fido_dev_new true true hidOpen hidClose hidRead hidWrite = some d0) :
    (fido_dev_cancel dev writeOk).2 =
      [{ cid := dev.cid, cmd := CTAP_FRAME_INIT ||| CTAP_CMD_CANCEL, payload := [] }] ∧
    ((fido_dev_cancel dev writeOk).1 = FIDO_OK ↔ writeOk = true) ∧
    ((fido_dev_cancel dev writeOk).1 = FIDO_ERR_TX ↔ writeOk = false) ∧
    d0.cid = CTAP_CID_BROADCAST ∧
    (fido_dev_cancel d0 writeOk).2 =
      [{ cid := CTAP_CID_BROADCAST, cmd := CTAP_FRAME_INIT ||| CTAP_CMD_CANCEL,
         payload := [] }] := by
  simp only [fido_dev_new, Bool.true_eq_false, if_false, Option.some.injEq] at hnew
  subst hnew
  cases writeOk <;> simp [fido_dev_cancel, fido_tx]

/-- C6 witness. -/
theorem cancel_spec_witness :
    (fido_dev_cancel wit_dev true).1 = FIDO_OK ∧
    (fido_dev_cancel wit_dev true).2 =
      [{ cid := CTAP_CID_BROADCAST, cmd := CTAP_FRAME_INIT ||| CTAP_CMD_CANCEL,
         payload := [] }] :=
  ⟨((cancel_spec wit_dev true 0 1 2 3 wit_dev rfl).2.1).mpr rfl,
   (cancel_spec wit_dev true 0 1 2 3 wit_dev rfl).2.2.2.2⟩

/-- C1: on a closed session with a usable vtable, when the INIT handshake
reply is read (`rx_n ≥ 0`) but its length differs from the attribute
structure or its nonce differs from the nonce the session sent, then
`fido_dev_open` fails with FIDO_ERR_RX and the session's I/O handle is closed
and set to null. (Precondition of the claim: non-FIDO_FUZZ build, which the
embedding models.) -/
theorem open_bad_nonce_fails {H F : Type} (dev : fido_dev_t H F)
    (path : Option String) (nonce : Nat) (h : H) (rx_n : Int)
    (rx_attr : fido_ctap_info)
    (hclosed : dev.io_handle = none)
    (hopen : dev.dev_info.io.open_fn.isSome = true)
    (hclose : dev.dev_info.io.close_fn.isSome = true)
    (hn : 0 ≤ rx_n)
    (hbad : rx_n ≠ (CTAP_INIT_REPLY_SIZE : Int) ∨ rx_attr.nonce ≠ nonce) :
    (fido_dev_open dev path (some nonce) (some h) true rx_n rx_attr).1 =
      FIDO_ERR_RX ∧
    (fido_dev_open dev path (some nonce) (some h) true rx_n rx_attr).2.io_handle =
      none := by
  obtain ⟨o, hoo⟩ := Option.isSome_iff_exists.mp hopen
  obtain ⟨c, hcc⟩ := Option.isSome_iff_exists.mp hclose
  have hnn : ¬ rx_n < 0 := not_lt.mpr hn
  rcases hbad with hb | hb <;>
    simp [fido_dev_open, fido_dev_open_wait, fido_dev_open_tx, fido_dev_open_rx,
          fido_tx, hclosed, hoo, hcc, hnn, hb]

/-- C1 witness. -/
theorem open_bad_nonce_fails_witness :
    (fido_dev_open wit_dev none (some 1) (some 7) true 17
        { nonce := 5, cid := 0, protocol := 0, major := 0, minor := 0,
          build := 0, flags := 0 }).1 = FIDO_ERR_RX ∧
    (fido_dev_open wit_dev none (some 1) (some 7) true 17
        { nonce := 5, cid := 0, protocol := 0, major := 0, minor := 0,
          build := 0, flags := 0 }).2.io_handle = none :=
  open_bad_nonce_fails wit_dev none 1 7 17
    { nonce := 5, cid := 0, protocol := 0, major := 0, minor := 0,
      build := 0, flags := 0 } rfl rfl rfl (by decide) (Or.inr (by decide))

/-- Any error outcome of the open handshake leaves the handle null, for a
session that starts closed (shared argument for both open entry points). -/
theorem open_wait_error_leaves_closed {H F : Type} (dev : fido_dev_t H F)
    (path : Option String) (nonce_res : Option Nat) (open_res : Option H)
    (writeOk : Bool) (rx_n : Int) (rx_attr : fido_ctap_info)
    (hclosed : dev.io_handle = none) :
    (fido_dev_open_wait dev path nonce_res open_res writeOk rx_n rx_attr).1 ≠
      FIDO_OK →
    (fido_dev_open_wait dev path nonce_res open_res writeOk rx_n rx_attr).2.io_handle =
      none := by
  intro hr
  by_cases hvt : (dev.dev_info.io.open_fn.isNone || dev.dev_info.io.close_fn.isNone) = true
  · simp [fido_dev_open_wait, fido_dev_open_tx, hclosed, hvt]
  · simp only [Bool.not_eq_true, Bool.or_eq_false_iff] at hvt
    rcases nonce_res with _ | nonce
    · simp [fido_dev_open_wait, fido_dev_open_tx, hclosed, hvt.1, hvt.2]
    · rcases open_res with _ | h
      · simp [fido_dev_open_wait, fido_dev_open_tx, hclosed, hvt.1, hvt.2]
      · cases writeOk with
        | false =>
          simp [fido_dev_open_wait, fido_dev_open_tx, fido_tx, hclosed,
                hvt.1, hvt.2]
        | true =>
          by_cases hneg : rx_n < 0
          · simp [fido_dev_open_wait, fido_dev_open_tx, fido_dev_open_rx,
                  fido_tx, hclosed, hvt.1, hvt.2, hneg]
          · by_cases hbad : rx_n ≠ (CTAP_INIT_REPLY_SIZE : Int) ∨ rx_attr.nonce ≠ nonce
            · rcases hbad with hb | hb <;>
                simp [fido_dev_open_wait, fido_dev_open_tx, fido_dev_open_rx,
                      fido_tx, hclosed, hvt.1, hvt.2, hneg, hb]
            · push_neg at hbad
              exact absurd (by
                simp [fido_dev_open_wait, fido_dev_open_tx, fido_dev_open_rx,
                      fido_tx, CTAP_INIT_REPLY_SIZE, hclosed, hvt.1, hvt.2,
                      hneg, hbad.1, hbad.2]) hr

/-- C4: for a session whose handle is not already open, whenever
`fido_dev_open` or `fido_dev_open_with_info` returns an error — invalid
vtable, internal (nonce or open failure), Tx failure, Rx failure or bad
nonce — the session's I/O handle is null afterwards, so the session is back
in the closed state. -/
theorem open_error_leaves_closed {H F : Type} (dev : fido_dev_t H F)
    (path : Option String) (nonce_res : Option Nat) (open_res : Option H)
    (writeOk : Bool) (rx_n : Int) (rx_attr : fido_ctap_info)
    (hclosed : dev.io_handle = none) :
    ((fido_dev_open dev path nonce_res open_res writeOk rx_n rx_attr).1 ≠ FIDO_OK →
      (fido_dev_open dev path nonce_res open_res writeOk rx_n rx_attr).2.io_handle =
        none) ∧
    ((fido_dev_open_with_info dev nonce_res open_res writeOk rx_n rx_attr).1 ≠ FIDO_OK →
      (fido_dev_open_with_info dev nonce_res open_res writeOk rx_n rx_attr).2.io_handle =
        none) :=
  ⟨open_wait_error_leaves_closed dev path nonce_res open_res writeOk rx_n rx_attr
      hclosed,
   open_wait_error_leaves_closed dev dev.dev_info.path nonce_res open_res writeOk
      rx_n rx_attr hclosed⟩

/-- C4 witness (failed nonce acquisition on one path, with-info on the other). -/
theorem open_error_leaves_closed_witness :
    (fido_dev_open wit_dev none none none false 0
        { nonce := 0, cid := 0, protocol := 0, major := 0, minor := 0,
          build := 0, flags := 0 }).2.io_handle = none ∧
    (fido_dev_open_with_info wit_dev none none false 0
        { nonce := 0, cid := 0, protocol := 0, major := 0, minor := 0,
          build := 0, flags := 0 }).2.io_handle = none :=
  ⟨(open_error_leaves_closed wit_dev none none none false 0
      { nonce := 0, cid := 0, protocol := 0, major := 0, minor := 0,
        build := 0, flags := 0 } rfl).1 (by decide),
   (open_error_leaves_closed wit_dev none none none false 0
      { nonce := 0, cid := 0, protocol := 0, major := 0, minor := 0,
        build := 0, flags := 0 } rfl).2 (by decide)⟩

/-- Bits of the truncated complement mask 251 = 0xFB away from position 2. -/
theorem testBit_mask251 {i : Nat} (hi : i ≠ 2) :
    Nat.testBit 251 i = decide (i < 8) := by
  have h : (251 : Nat) = (2 ^ 8 - 1) ^^^ 2 ^ 2 := by decide
  rw [h, Nat.testBit_xor, Nat.testBit_two_pow_sub_one,
      Nat.testBit_two_pow_of_ne (Ne.symm hi), Bool.xor_false]

/-- Clearing bit 2 by the 8-bit mask leaves every other bit of a byte alone. -/
theorem and251_testBit {f i : Nat} (hf : f < 256) (hi : i ≠ 2) :
    (f &&& 251).testBit i = f.testBit i := by
  rw [Nat.testBit_land, testBit_mask251 hi]
  rcases lt_or_ge i 8 with h8 | h8
  · simp [h8]
  · have h256 : (256 : Nat) ≤ 2 ^ i := by
      calc (256 : Nat) = 2 ^ 8 := by norm_num
      _ ≤ 2 ^ i := Nat.pow_le_pow_right (by norm_num) h8
    have h1 : f.testBit i = false :=
      Nat.testBit_lt_two_pow (lt_of_lt_of_le hf h256)
    simp [h1]

/-- Setting bit 2 leaves every other bit alone. -/
theorem or4_testBit {f i : Nat} (hi : i ≠ 2) :
    (f ||| 4).testBit i = f.testBit i := by
  rw [Nat.testBit_lor, show (4 : Nat) = 2 ^ 2 from rfl,
      Nat.testBit_two_pow_of_ne (Ne.symm hi), Bool.or_false]

/-- Testing the CBOR bit via the mask 4 is testing bit 2. -/
theorem and_four_bne_zero (f : Nat) : (f &&& 4 != 0) = f.testBit 2 := by
  have h := Nat.and_two_pow f 2
  norm_num at h
  rw [h]
  cases htb : f.testBit 2 <;> simp [htb]

/-- C9: `fido_dev_is_fido2` is true exactly when the CBOR capability bit
(bit 2) of the flag byte is set; after `fido_dev_force_u2f` it is false and
after `fido_dev_force_fido2` it is true; both force operations are
idempotent, change no bit of the flags other than the CBOR bit, and change no
other session field. (The value FIDO_CAP_CBOR = 0x04 is modelled from the
spec, the header being absent.) -/
theorem fido2_flag_spec {H F : Type} (dev : fido_dev_t H F)
    (hflags : dev.attr.flags < 256) :
    (fido_dev_is_fido2 dev = dev.attr.flags.testBit 2) ∧
    fido_dev_is_fido2 (fido_dev_force_u2f dev) = false ∧
    fido_dev_is_fido2 (fido_dev_force_fido2 dev) = true ∧
    fido_dev_force_u2f (fido_dev_force_u2f dev) = fido_dev_force_u2f dev ∧
    fido_dev_force_fido2 (fido_dev_force_fido2 dev) = fido_dev_force_fido2 dev ∧
    (∀ i, i ≠ 2 →
      ((fido_dev_force_u2f dev).attr.flags.testBit i = dev.attr.flags.testBit i ∧
       (fido_dev_force_fido2 dev).attr.flags.testBit i = dev.attr.flags.testBit i)) ∧
    ((fido_dev_force_u2f dev).io_handle = dev.io_handle ∧
     (fido_dev_force_u2f dev).cid = dev.cid ∧
     (fido_dev_force_u2f dev).nonce = dev.nonce ∧
     (fido_dev_force_u2f dev).dev_info = dev.dev_info ∧
     (fido_dev_force_u2f dev).attr.nonce = dev.attr.nonce ∧
     (fido_dev_force_u2f dev).attr.cid = dev.attr.cid ∧
     (fido_dev_force_u2f dev).attr.protocol = dev.attr.protocol ∧
     (fido_dev_force_u2f dev).attr.major = dev.attr.major ∧
     (fido_dev_force_u2f dev).attr.minor = dev.attr.minor ∧
     (fido_dev_force_u2f dev).attr.build = dev.attr.build) ∧
    ((fido_dev_force_fido2 dev).io_handle = dev.io_handle ∧
     (fido_dev_force_fido2 dev).cid = dev.cid ∧
     (fido_dev_force_fido2 dev).nonce = dev.nonce ∧
     (fido_dev_force_fido2 dev).dev_info = dev.dev_info ∧
     (fido_dev_force_fido2 dev).attr.nonce = dev.attr.nonce ∧
     (fido_dev_force_fido2 dev).attr.cid = dev.attr.cid ∧
     (fido_dev_force_fido2 dev).attr.protocol = dev.attr.protocol ∧
     (fido_dev_force_fido2 dev).attr.major = dev.attr.major ∧
     (fido_dev_force_fido2 dev).attr.minor = dev.attr.minor ∧
     (fido_dev_force_fido2 dev).attr.build = dev.attr.build) := by
  obtain ⟨ioh, dcid, dnonce, attr, info⟩ := dev
  obtain ⟨an, ac, ap, amj, amn, ab, af⟩ := attr
  have haf : af < 256 := hflags
  refine ⟨and_four_bne_zero af, ?_, ?_, ?_, ?_, ?_, ?_, ?_⟩
  · show ((af &&& (255 ^^^ 4)) &&& 4 != 0) = false
    rw [show (255 ^^^ 4 : Nat) = 251 from by decide, Nat.and_assoc,
        show (251 &&& 4 : Nat) = 0 from by decide, Nat.and_zero]
    rfl
  · show ((af ||| 4) &&& 4 != 0) = true
    have h : (af ||| 4) &&& 4 = 4 := by
      apply Nat.eq_of_testBit_eq
      intro i
      rw [Nat.testBit_land, Nat.testBit_lor]
      cases h1 : af.testBit i <;> cases h2 : Nat.testBit 4 i <;> simp [h1, h2]
    rw [h]
    rfl
  · show fido_dev_t.mk ioh dcid dnonce
        (fido_ctap_info.mk an ac ap amj amn ab ((af &&& (255 ^^^ 4)) &&& (255 ^^^ 4)))
        info =
      fido_dev_t.mk ioh dcid dnonce
        (fido_ctap_info.mk an ac ap amj amn ab (af &&& (255 ^^^ 4))) info
    rw [Nat.and_assoc, Nat.and_self]
  · show fido_dev_t.mk ioh dcid dnonce
        (fido_ctap_info.mk an ac ap amj amn ab ((af ||| 4) ||| 4)) info =
      fido_dev_t.mk ioh dcid dnonce
        (fido_ctap_info.mk an ac ap amj amn ab (af ||| 4)) info
    rw [Nat.or_assoc, Nat.or_self]
  · intro i hi
    constructor
    · show (af &&& (255 ^^^ 4)).testBit i = af.testBit i
      rw [show (255 ^^^ 4 : Nat) = 251 from by decide]
      exact and251_testBit haf hi
    · exact or4_testBit hi
  · exact ⟨rfl, rfl, rfl, rfl, rfl, rfl, rfl, rfl, rfl, rfl⟩
  · exact ⟨rfl, rfl, rfl, rfl, rfl, rfl, rfl, rfl, rfl, rfl⟩

/-- C9 witness. -/
theorem fido2_flag_spec_witness :
    fido_dev_is_fido2 (fido_dev_force_fido2 wit_dev) = true ∧
    fido_dev_is_fido2 (fido_dev_force_u2f wit_dev) = false :=
  ⟨(fido2_flag_spec wit_dev (by decide)).2.2.1,
   (fido2_flag_spec wit_dev (by decide)).2.1⟩

/-- Wrap-around `size_t` subtraction is ordinary subtraction in range. -/
theorem sub_size_of_le {a b : Nat} (hb : b ≤ a) (ha : a < SIZE_T_MOD) :
    sub_size a b = a - b := by
  simp only [sub_size, SIZE_T_MOD] at *
  omega

/-- Invariant of the manifest loop: with well-behaved providers, the running
`*olen` never exceeds `ilen` (stated for every start value, i.e. at every
intermediate point of the loop). -/
theorem go_olen_le (ilen : Nat) (hilen : ilen < SIZE_T_MOD) :
    ∀ (regs : List dev_manifest_func_t) (olen : Nat),
      (∀ f ∈ regs, WellBehaved f) → olen ≤ ilen →
      (fido_dev_info_manifest_go ilen regs olen).2.1 ≤ ilen := by
  intro regs
  induction regs with
  | nil =>
    intro olen hwb holen
    simpa [fido_dev_info_manifest_go] using holen
  | cons f rest ih =>
    intro olen hwb holen
    have hsub : sub_size ilen olen = ilen - olen := sub_size_of_le holen hilen
    by_cases hok : (f (sub_size ilen olen)).1 = FIDO_OK
    · have hcnt : (f (sub_size ilen olen)).2 ≤ sub_size ilen olen :=
        hwb f (List.mem_cons_self f rest) (sub_size ilen olen) hok
      have hsum : olen + (f (sub_size ilen olen)).2 ≤ ilen := by omega
      have hmod : (olen + (f (sub_size ilen olen)).2) % SIZE_T_MOD =
          olen + (f (sub_size ilen olen)).2 :=
        Nat.mod_eq_of_lt (lt_of_le_of_lt hsum hilen)
      by_cases hfull : (olen + (f (sub_size ilen olen)).2) % SIZE_T_MOD = ilen
      · simp [fido_dev_info_manifest_go, hok, hfull]
      · have h1 := ih ((olen + (f (sub_size ilen olen)).2) % SIZE_T_MOD)
          (fun g hg => hwb g (List.mem_cons_of_mem f hg))
          (by rw [hmod]; exact hsum)
        simp only [fido_dev_info_manifest_go, hok, if_true, if_neg hfull, if_pos]
        exact h1
    · simp [fido_dev_info_manifest_go, hok]
      exact holen

/-- A run of the manifest loop over providers that all succeed, when it does
not fill the capacity early, returns FIDO_OK with the accumulated `*olen`
and invokes exactly the listed providers in list order. -/
theorem go_all_ok (ilen : Nat) :
    ∀ (regs : List dev_manifest_func_t) (olen s : Nat),
      (∀ g ∈ regs, ∀ cap, (g cap).1 = FIDO_OK) →
      ok_run ilen regs olen = some s →
      fido_dev_info_manifest_go ilen regs olen = (FIDO_OK, s, regs) := by
  intro regs
  induction regs with
  | nil =>
    intro olen s hok hrun
    simp [ok_run] at hrun
    simp [fido_dev_info_manifest_go, hrun]
  | cons g rest ih =>
    intro olen s hok hrun
    have hg := hok g (List.mem_cons_self g rest) (sub_size ilen olen)
    simp only [ok_run] at hrun
    by_cases hfull : (olen + (g (sub_size ilen olen)).2) % SIZE_T_MOD = ilen
    · rw [if_pos hfull] at hrun
      exact absurd hrun (by simp)
    · rw [if_neg hfull] at hrun
      have h2 := ih ((olen + (g (sub_size ilen olen)).2) % SIZE_T_MOD) s
        (fun g' hg' => hok g' (List.mem_cons_of_mem g hg')) hrun
      simp [fido_dev_info_manifest_go, hg, hfull, h2]

/-- A run over succeeding providers followed by a failing one: the loop
returns the failing provider's error with `*olen` as accumulated by the
successful prefix, and does not go past the failing provider. -/
theorem go_first_error (ilen : Nat) (e : dev_manifest_func_t) (c : fido_err)
    (he : ∀ cap, (e cap).1 = c) (hc : c ≠ FIDO_OK) :
    ∀ (pre post : List dev_manifest_func_t) (olen s : Nat),
      (∀ g ∈ pre, ∀ cap, (g cap).1 = FIDO_OK) →
      ok_run ilen pre olen = some s →
      fido_dev_info_manifest_go ilen (pre ++ e :: post) olen = (c, s, pre ++ [e]) := by
  intro pre
  induction pre with
  | nil =>
    intro post olen s hok hrun
    simp [ok_run] at hrun
    subst hrun
    have hec := he (sub_size ilen olen)
    simp [fido_dev_info_manifest_go, hec, hc]
  | cons g pre' ih =>
    intro post olen s hok hrun
    have hg := hok g (List.mem_cons_self g pre') (sub_size ilen olen)
    simp only [ok_run] at hrun
    by_cases hfull : (olen + (g (sub_size ilen olen)).2) % SIZE_T_MOD = ilen
    · rw [if_pos hfull] at hrun
      exact absurd hrun (by simp)
    · rw [if_neg hfull] at hrun
      have h2 := ih post ((olen + (g (sub_size ilen olen)).2) % SIZE_T_MOD) s
        (fun g' hg' => hok g' (List.mem_cons_of_mem g hg')) hrun
      simp [fido_dev_info_manifest_go, hg, hfull, h2]

/-- Folding registrations over an accumulator prepends the reversed sequence. -/
theorem foldl_register_append (fs : List dev_manifest_func_t) :
    ∀ acc, fs.foldl (fun regs f => (fido_dev_register_manifest_func true f regs).2) acc =
      fs.reverse ++ acc := by
  induction fs with
  | nil => intro acc; simp
  | cons f rest ih =>
    intro acc
    simp [List.foldl_cons, fido_dev_register_manifest_func, ih]

/-- Registering a sequence of providers leaves the registry holding them in
reverse order: registration is prepend, not append. -/
theorem register_sequence_eq_reverse (fs : List dev_manifest_func_t) :
    register_sequence fs = fs.reverse := by
  unfold register_sequence
  rw [foldl_register_append]
  simp

/-- C2 counterexample: registering `cex_f1` then `cex_f2` and enumerating
invokes `cex_f2` before `cex_f1` — the reverse of insertion order — because
registration prepends to the registry. -/
theorem manifest_insertion_order_cex :
    (fido_dev_info_manifest
        (fido_dev_register_manifest_func true cex_f2
          (fido_dev_register_manifest_func true cex_f1 []).2).2 5).2.2 =
      [cex_f2, cex_f1] ∧
    ([cex_f2, cex_f1] : List dev_manifest_func_t) ≠ [cex_f1, cex_f2] := by
  constructor
  · rfl
  · intro hlist
    have h1 : cex_f2 = cex_f1 := by injection hlist
    have h2 := congrArg (fun g => (g 0).2) h1
    simp [cex_f1, cex_f2] at h2

/-- C2 (amended): provider registration prepends to the registry, and
manifest enumeration invokes providers in registry order, i.e. in reverse
registration order: after registering f1, ..., fn the registry is fn, ..., f1
and — when every provider succeeds and the capacity is not filled early —
exactly those providers are invoked in the order fn, ..., f1. -/
theorem manifest_reverse_insertion_order (fs : List dev_manifest_func_t)
    (ilen s : Nat)
    (hok : ∀ g ∈ fs, ∀ cap, (g cap).1 = FIDO_OK)
    (hrun : ok_run ilen fs.reverse 0 = some s) :
    register_sequence fs = fs.reverse ∧
    fido_dev_info_manifest (register_sequence fs) ilen = (FIDO_OK, s, fs.reverse) := by
  have hrev : register_sequence fs = fs.reverse := register_sequence_eq_reverse fs
  refine ⟨hrev, ?_⟩
  rw [hrev]
  exact go_all_ok ilen fs.reverse 0 s (fun g hg => hok g (List.mem_reverse.mp hg)) hrun

/-- C2 witness. -/
theorem manifest_reverse_insertion_order_witness :
    register_sequence [cex_f1, cex_f2] = [cex_f2, cex_f1] ∧
    fido_dev_info_manifest (register_sequence [cex_f1, cex_f2]) 5 =
      (FIDO_OK, 1, [cex_f2, cex_f1]) :=
  manifest_reverse_insertion_order [cex_f1, cex_f2] 5 1
    (by
      intro g hg cap
      simp only [List.mem_cons, List.not_mem_nil, or_false] at hg
      rcases hg with rfl | rfl <;> rfl)
    rfl

/-- C3 counterexample: `fido_init` is not idempotent on the provider
registry — a second call leaves two copies of the platform provider where a
single call leaves one. -/
theorem init_not_idempotent_cex :
    fido_init cex_f1 true (fido_init cex_f1 true []) ≠ fido_init cex_f1 true [] := by
  intro h
  have hlen := congrArg List.length h
  simp [fido_init, fido_dev_register_manifest_func] at hlen

/-- C3 (amended): each successful `fido_init` call registers (prepends) the
platform manifest provider — so calling it twice leaves two registry entries,
not one — and `fido_exit` flushes the provider list, leaving the registry
empty. -/
theorem init_registers_exit_flushes (p : dev_manifest_func_t)
    (regs : List dev_manifest_func_t) (allocOk : Bool) (ha : allocOk = true) :
    fido_init p allocOk regs = p :: regs ∧ fido_exit regs = [] := by
  subst ha
  exact ⟨rfl, rfl⟩

/-- C3 witness. -/
theorem init_registers_exit_flushes_witness :
    fido_init cex_f1 true [] = [cex_f1] ∧ fido_exit [] = [] :=
  init_registers_exit_flushes cex_f1 [] true rfl

/-- C10: for well-behaved providers (each reporting at most the capacity it
was given), `fido_dev_info_manifest` keeps `*olen ≤ ilen` throughout the loop
(stated as an invariant over every intermediate `*olen`), stops invoking
further providers once `*olen` reaches `ilen` (only the filling provider is
invoked from that point), and on the first provider that fails it returns
that provider's error with `*olen` equal to the count accumulated by the
providers that succeeded before it. -/
theorem manifest_capacity_and_error_spec :
    (∀ ilen (regs : List dev_manifest_func_t) olen, ilen < SIZE_T_MOD →
        olen ≤ ilen → (∀ f ∈ regs, WellBehaved f) →
        (fido_dev_info_manifest_go ilen regs olen).2.1 ≤ ilen) ∧
    (∀ (regs : List dev_manifest_func_t) ilen, ilen < SIZE_T_MOD →
        (∀ f ∈ regs, WellBehaved f) →
        (fido_dev_info_manifest regs ilen).2.1 ≤ ilen) ∧
    (∀ ilen (f : dev_manifest_func_t) rest olen,
        (f (sub_size ilen olen)).1 = FIDO_OK →
        (olen + (f (sub_size ilen olen)).2) % SIZE_T_MOD = ilen →
        fido_dev_info_manifest_go ilen (f :: rest) olen = (FIDO_OK, ilen, [f])) ∧
    (∀ ilen (pre : List dev_manifest_func_t) e post s c,
        (∀ g ∈ pre, ∀ cap, (g cap).1 = FIDO_OK) →
        ok_run ilen pre 0 = some s →
        (∀ cap, (e cap).1 = c) → c ≠ FIDO_OK →
        fido_dev_info_manifest (pre ++ e :: post) ilen = (c, s, pre ++ [e])) := by
  refine ⟨?_, ?_, ?_, ?_⟩
  · intro ilen regs olen hilen holen hwb
    exact go_olen_le ilen hilen regs olen hwb holen
  · intro regs ilen hilen hwb
    exact go_olen_le ilen hilen regs 0 hwb (Nat.zero_le ilen)
  · intro ilen f rest olen hok hfull
    simp [fido_dev_info_manifest_go, hok, hfull]
  · intro ilen pre e post s c hpre hrun he hc
    exact go_first_error ilen e c he hc pre post 0 s hpre hrun

/-- C10 witness: a capacity-respecting run stays within bounds, a filling
provider stops the loop, and a failing provider surfaces its error with the
prefix count. -/
theorem manifest_capacity_and_error_spec_witness :
    (fido_dev_info_manifest [wit_small] 5).2.1 ≤ 5 ∧
    fido_dev_info_manifest_go 5 [wit_fill, wit_small] 3 = (FIDO_OK, 5, [wit_fill]) ∧
    fido_dev_info_manifest [wit_small, wit_err, wit_small] 5 =
      (FIDO_ERR_INTERNAL, 1, [wit_small, wit_err]) := by
  refine ⟨?_, ?_, ?_⟩
  · exact manifest_capacity_and_error_spec.2.1 [wit_small] 5 (by decide)
      (by
        intro f hf
        simp only [List.mem_cons, List.not_mem_nil, or_false] at hf
        subst hf
        intro cap hok
        exact Nat.min_le_right 1 cap)
  · exact manifest_capacity_and_error_spec.2.2.1 5 wit_fill [wit_small] 3 rfl (by decide)
  · exact manifest_capacity_and_error_spec.2.2.2 5 [wit_small] wit_err [wit_small] 1
      FIDO_ERR_INTERNAL
      (by
        intro g hg cap
        simp only [List.mem_cons, List.not_mem_nil, or_false] at hg
        subst hg
        rfl)
      rfl (fun cap => rfl) (by decide)
